import Mathlib

/-!
Verification of the manifest-patcher component of `devops-ready-cluster`
(`modifyMetricsServerFile` and the `KubernetesResource` data model in `main.go`).

The patcher reads a multi-document YAML file, decodes each document into a
`KubernetesResource` struct (yaml.v3 semantics: only the four declared fields
are interpreted, unknown fields are ignored; a decode error terminates the
decode loop, keeping the documents decoded so far), locates the first
`Deployment` named `metrics-server` whose `spec.template.spec.containers`
path is navigable, ensures `--kubelet-insecure-tls` is present in the first
container's `args`, and marshals the resource slice back to YAML (which emits
a single document whose root is a sequence).

We model YAML values with an inductive `Value` type, the byte stream with
`RawStream` (its well-formed document prefix plus a flag recording whether
the remaining bytes are malformed), and Go's in-place map mutation with
functional update along the descent path.
-/

/-- A YAML value as decoded by yaml.v3 into `interface\x7b\x7d`:
scalars (string, integer, boolean, null), mappings with string keys,
and sequences. -/
inductive Value where
  | str : String → Value
  | intv : Int → Value
  | boolv : Bool → Value
  | null : Value
  | map : List (String × Value) → Value
  | seq : List Value → Value

/-- Go map lookup `m[key]` on the association-list model of
`map[string]interface\x7b\x7d`: the value at the first matching key,
`none` when the key is absent. -/
def lookupV : List (String × Value) → String → Option Value
  | [], _ => none
  | (k, v) :: rest, key => if k == key then some v else lookupV rest key

/-- Go map store `m[key] = v`: replace the value at the first matching key,
or add the binding when the key is absent. -/
def mapSet : List (String × Value) → String → Value → List (String × Value)
  | [], key, v => [(key, v)]
  | (k, w) :: rest, key, v =>
      if k == key then (key, v) :: rest else (k, w) :: mapSet rest key v

/-- The `KubernetesResource` struct: the four YAML fields the patcher
interprets (`apiVersion`, `kind`, `metadata`, `spec`). -/
structure KubernetesResource where
  apiVersion : String
  kind : String
  metadata : List (String × Value)
  spec : List (String × Value)

/-- yaml.v3 decoding of one document field into a `string` struct field:
absent or null yields the zero value `""`, a string scalar yields itself,
anything else is a decode error. -/
def decodeStringField (kvs : List (String × Value)) (key : String) : Option String :=
  match lookupV kvs key with
  | none => some ""
  | some (Value.str s) => some s
  | some Value.null => some ""
  | some _ => none

/-- yaml.v3 decoding of one document field into a
`map[string]interface\x7b\x7d` struct field: absent or null yields the zero
value (empty map), a mapping yields itself, anything else is a decode error. -/
def decodeMapField (kvs : List (String × Value)) (key : String) :
    Option (List (String × Value)) :=
  match lookupV kvs key with
  | none => some []
  | some (Value.map m) => some m
  | some Value.null => some []
  | some _ => none

/-- yaml.v3 decoding of one YAML document into `KubernetesResource`:
the root must be a mapping (or null, which leaves the zero struct);
unknown keys are ignored; a field of the wrong shape is a decode error. -/
def decodeResource : Value → Option KubernetesResource
  | Value.map kvs =>
      match decodeStringField kvs "apiVersion", decodeStringField kvs "kind",
            decodeMapField kvs "metadata", decodeMapField kvs "spec" with
      | some av, some k, some md, some sp => some ⟨av, k, md, sp⟩
      | _, _, _, _ => none
  | Value.null => some ⟨"", "", [], []⟩
  | _ => none

/-- The decode loop of `modifyMetricsServerFile`: decode documents one at a
time; on the first decode error, `break` — the documents decoded so far are
kept and the rest of the stream is silently dropped. -/
def decodeAll : List Value → List KubernetesResource
  | [] => []
  | d :: ds =>
      match decodeResource d with
      | none => []
      | some r => r :: decodeAll ds

/-- A raw manifest byte stream: its maximal prefix of well-formed YAML
documents, plus whether the remaining bytes are malformed under the YAML
grammar (in which case the decoder errors there and the loop breaks). -/
structure RawStream where
  docs : List Value
  malformedTail : Bool

/-- `parse`: what the decode loop of `modifyMetricsServerFile` produces from
a raw stream. A malformed tail makes the decoder error, which the loop
treats exactly like end of stream, so the well-formed prefix is returned
either way and no error is reported. -/
def parseResources (s : RawStream) : List KubernetesResource :=
  decodeAll s.docs

/-- The flag the patcher ensures: `--kubelet-insecure-tls`. -/
def theFlag : String := "--kubelet-insecure-tls"

/-- The scan of the Go code `for _, arg := range args`: does the argument
list contain the flag (interface-to-string comparison: only a string scalar
equal to the flag matches)? -/
def hasFlag : List Value → Bool
  | [] => false
  | v :: rest =>
      (match v with
       | Value.str s => s == theFlag
       | _ => false) || hasFlag rest

/-- The target test of the find loop:
`res.Kind == "Deployment" && res.Metadata["name"] == "metrics-server"`
(the metadata value matches only when it is that string scalar). -/
def isTarget (res : KubernetesResource) : Bool :=
  res.kind == "Deployment" &&
    (match lookupV res.metadata "name" with
     | some (Value.str s) => s == "metrics-server"
     | _ => false)

/-- Go's checked type assertion `v, ok := x.(map[string]interface\x7b\x7d)`
on a looked-up value: `some` exactly when the value is present and a
mapping. -/
def asMap : Option Value → Option (List (String × Value))
  | some (Value.map m) => some m
  | _ => none

/-- Go's checked type assertion `v, ok := x.([]interface\x7b\x7d)` on a
looked-up value: `some` exactly when the value is present and a sequence. -/
def asSeq : Option Value → Option (List Value)
  | some (Value.seq l) => some l
  | _ => none

/-- The tolerant read of the container's `args`:
`args, ok := container["args"].([]interface\x7b\x7d); if !ok \x7b args = []interface\x7b\x7d\x7b\x7d \x7d`
— absent or non-sequence reads as the empty list. -/
def argsRead (container : List (String × Value)) : List Value :=
  match asSeq (lookupV container "args") with
  | some a => a
  | none => []

/-- Outcome the patcher logs for the whole loop: the flag was added, it was
already present, or the loop finished without patching anything. -/
inductive PatchReport where
  | added
  | alreadyPresent
  | notPatched
deriving DecidableEq

/-- Result of one loop iteration on one resource: `skip` (no selector match,
or a `continue` on a missing/ill-typed path segment or empty container
list), `panicked` (the unchecked assertion `containers[0].(map[string]
interface\x7b\x7d)` fails), or `patched` with the updated resource and what
was logged. -/
inductive TryResult where
  | skip
  | panicked
  | patched (res : KubernetesResource) (rep : PatchReport)

/-- One iteration of the find-and-patch loop of `modifyMetricsServerFile`,
faithful to the Go control flow: the selector test, the descent through
`spec.template.spec.containers` with `continue` on any ill-typed or absent
segment (and on an empty container list), the unchecked type assertion on
`containers[0]`, the tolerant read of `args` (non-sequence or absent reads
as empty), the flag scan, and the in-place append modelled as functional
update along the path. -/
def tryPatch (res : KubernetesResource) : TryResult :=
  if isTarget res then
    match asMap (lookupV res.spec "template") with
    | none => TryResult.skip
    | some specTemplate =>
      match asMap (lookupV specTemplate "spec") with
      | none => TryResult.skip
      | some innerSpec =>
        match asSeq (lookupV innerSpec "containers") with
        | none => TryResult.skip
        | some [] => TryResult.skip
        | some (c₀ :: crest) =>
          match c₀ with
          | Value.map container =>
            let args := argsRead container
            if hasFlag args then
              TryResult.patched res PatchReport.alreadyPresent
            else
              let container' := mapSet container "args"
                (Value.seq (args ++ [Value.str theFlag]))
              let innerSpec' := mapSet innerSpec "containers"
                (Value.seq (Value.map container' :: crest))
              let specTemplate' := mapSet specTemplate "spec" (Value.map innerSpec')
              let spec' := mapSet res.spec "template" (Value.map specTemplate')
              TryResult.patched { res with spec := spec' } PatchReport.added
          | _ => TryResult.panicked
  else TryResult.skip

/-- The find-and-patch loop over the resource slice: scan in order, `skip`
moves on, a successful patch stores the updated resource back at the same
index and `break`s, a failed type assertion panics (modelled as `none`).
When the loop falls off the end nothing was patched. -/
def patchLoop : List KubernetesResource → Option (List KubernetesResource × PatchReport)
  | [] => some ([], PatchReport.notPatched)
  | res :: rest =>
      match tryPatch res with
      | TryResult.skip =>
          match patchLoop rest with
          | none => none
          | some (rest', rep) => some (res :: rest', rep)
      | TryResult.panicked => none
      | TryResult.patched res' rep => some (res' :: rest, rep)

/-- yaml.v3 marshalling of one `KubernetesResource`: a mapping with exactly
the four declared fields, in struct order. Any other field of the original
document is gone — the struct never held it. -/
def encodeResource (r : KubernetesResource) : Value :=
  Value.map [("apiVersion", Value.str r.apiVersion), ("kind", Value.str r.kind),
             ("metadata", Value.map r.metadata), ("spec", Value.map r.spec)]

/-- `yaml.Marshal(resources)` on the Go slice: ONE YAML document whose root
is a sequence of the encoded resources (not a multi-document stream). -/
def serializeResources (rs : List KubernetesResource) : Value :=
  Value.seq (rs.map encodeResource)

/-- The whole in-memory transform of `modifyMetricsServerFile` between the
file read and the file write: decode, find-and-patch, marshal. `none` means
the run panics on the unchecked type assertion; otherwise the value written
back and the logged outcome. Read, marshal and write errors aside, the
function never returns an error: decode failures were already swallowed by
the loop. -/
def modifyMetricsServer (s : RawStream) : Option (Value × PatchReport) :=
  match patchLoop (parseResources s) with
  | none => none
  | some (rs, rep) => some (serializeResources rs, rep)

/-- The `metadata` mapping of the target Deployment. -/
def mdMS : List (String × Value) := [("name", Value.str "metrics-server")]

/-- A Deployment named `metrics-server` whose `spec` has no `template` key:
it matches the selector but the descent hits a missing segment. -/
def skippedTarget : KubernetesResource :=
  ⟨"apps/v1", "Deployment", mdMS, []⟩

/-- A Deployment named `metrics-server` with a navigable
`spec.template.spec.containers` path and an empty `args` list. -/
def readyTarget : KubernetesResource :=
  ⟨"apps/v1", "Deployment", mdMS,
   [("template", Value.map [("spec", Value.map
      [("containers", Value.seq [Value.map [("args", Value.seq [])]])])])]⟩

/-- `readyTarget` after the patch: `args` is the one-element list holding
the flag. -/
def readyTargetPatched : KubernetesResource :=
  ⟨"apps/v1", "Deployment", mdMS,
   [("template", Value.map [("spec", Value.map
      [("containers", Value.seq
        [Value.map [("args", Value.seq [Value.str theFlag])]])])])]⟩

/-- The descent `spec.template.spec.containers` of the matched document, as
the Go code performs it: `some` exactly when every segment is present with
the expected container type and the container list is non-empty; `none` is
the missing-path case the loop `continue`s over. -/
def navContainers (res : KubernetesResource) : Option (List Value) :=
  match asMap (lookupV res.spec "template") with
  | none => none
  | some t =>
    match asMap (lookupV t "spec") with
    | none => none
    | some s =>
      match asSeq (lookupV s "containers") with
      | none => none
      | some [] => none
      | some cs => some cs

/-- The argument list of the first container of a resource, read the way the
Go code reads it (missing or non-sequence `args` reads as empty); `none`
when the descent fails or the first container is not a mapping. -/
def navFirstArgs (res : KubernetesResource) : Option (List Value) :=
  match navContainers res with
  | some (Value.map c :: _) => some (argsRead c)
  | _ => none

/-- The top-level field of a YAML document at a key, when the document is a
mapping. -/
def topField (doc : Value) (key : String) : Option Value :=
  match doc with
  | Value.map kvs => lookupV kvs key
  | _ => none

/-- The argument `--cert-dir=/tmp` of the spec scenario. -/
def certDirArg : Value := Value.str "--cert-dir=/tmp"

/-- The argument `--kubelet-use-node-status-port` of the spec scenario. -/
def nodePortArg : Value := Value.str "--kubelet-use-node-status-port"

/-- The spec scenario: a Deployment named `metrics-server` whose first
container's `args` are `["--cert-dir=/tmp", "--kubelet-use-node-status-port"]`. -/
def scenarioDeployment : KubernetesResource :=
  ⟨"apps/v1", "Deployment", mdMS,
   [("template", Value.map [("spec", Value.map
      [("containers", Value.seq [Value.map
        [("name", Value.str "metrics-server"),
         ("args", Value.seq [certDirArg, nodePortArg])]])])])]⟩

/-- The spec scenario after the patch: the flag appended at the end of the
argument list, pre-existing order untouched. -/
def scenarioDeploymentPatched : KubernetesResource :=
  ⟨"apps/v1", "Deployment", mdMS,
   [("template", Value.map [("spec", Value.map
      [("containers", Value.seq [Value.map
        [("name", Value.str "metrics-server"),
         ("args", Value.seq [certDirArg, nodePortArg, Value.str theFlag])]])])])]⟩

/-- A target Deployment whose first container has no `args` key at all. -/
def noArgsTarget : KubernetesResource :=
  ⟨"apps/v1", "Deployment", mdMS,
   [("template", Value.map [("spec", Value.map
      [("containers", Value.seq
        [Value.map [("name", Value.str "metrics-server")]])])])]⟩

/-- A well-formed document: a target Deployment whose container list is
non-empty but whose first element is a string scalar, not a mapping. -/
def scalarContainerDoc : Value :=
  Value.map [("apiVersion", Value.str "apps/v1"),
             ("kind", Value.str "Deployment"),
             ("metadata", Value.map mdMS),
             ("spec", Value.map [("template", Value.map [("spec", Value.map
               [("containers", Value.seq [Value.str "not-a-mapping"])])])])]

/-- What `scalarContainerDoc` decodes to. -/
def scalarContainerRes : KubernetesResource :=
  ⟨"apps/v1", "Deployment", mdMS,
   [("template", Value.map [("spec", Value.map
      [("containers", Value.seq [Value.str "not-a-mapping"])])])]⟩

/-- A non-matching document carrying a top-level field (`rules`) outside the
four the struct declares — the shape of the RBAC documents that accompany
the real `components.yaml`. -/
def clusterRoleDoc : Value :=
  Value.map [("apiVersion", Value.str "rbac.authorization.k8s.io/v1"),
             ("kind", Value.str "ClusterRole"),
             ("metadata", Value.map [("name", Value.str "system:metrics-server")]),
             ("rules", Value.seq [Value.map [("apiGroups", Value.seq [Value.str ""])]])]

/-- What the load→patch→save cycle writes back for `clusterRoleDoc`: only
the four declared fields survive; `rules` is gone. -/
def clusterRoleOut : Value :=
  Value.map [("apiVersion", Value.str "rbac.authorization.k8s.io/v1"),
             ("kind", Value.str "ClusterRole"),
             ("metadata", Value.map [("name", Value.str "system:metrics-server")]),
             ("spec", Value.map [])]

/-- A non-matching document (kind `Service`, so the selector fails). -/
def serviceRes : KubernetesResource :=
  ⟨"v1", "Service", [("name", Value.str "metrics-server")], []⟩

/-- A well-formed ServiceAccount document. -/
def serviceAccountDoc : Value :=
  Value.map [("apiVersion", Value.str "v1"),
             ("kind", Value.str "ServiceAccount"),
             ("metadata", Value.map [("name", Value.str "metrics-server")]),
             ("spec", Value.map [])]

/-- What `serviceAccountDoc` decodes to. -/
def serviceAccountRes : KubernetesResource :=
  ⟨"v1", "ServiceAccount", [("name", Value.str "metrics-server")], []⟩


/-- Looking up a key just stored by `mapSet` returns the stored value. -/
theorem lookupV_mapSet (m : List (String × Value)) (k : String) (v : Value) :
    lookupV (mapSet m k v) k = some v := by
  induction m with
  | nil => simp [mapSet, lookupV]
  | cons p rest ih =>
    obtain ⟨k', w⟩ := p
    by_cases hk : (k' == k) = true
    · simp [mapSet, hk, lookupV]
    · simp [mapSet, hk, lookupV, ih]

/-- A list with the flag appended at the end passes the flag scan. -/
theorem hasFlag_append (l : List Value) :
    hasFlag (l ++ [Value.str theFlag]) = true := by
  induction l with
  | nil => simp [hasFlag]
  | cons v rest ih => simp [hasFlag, ih]

/-- A resource that does not match the selector is skipped by the loop. -/
theorem tryPatch_of_not_target (res : KubernetesResource)
    (h : isTarget res = false) : tryPatch res = TryResult.skip := by
  unfold tryPatch
  simp [h]

/-- Reading `args` from a container map where `args` was just stored as a
sequence returns that sequence. -/
theorem argsRead_mapSet (c : List (String × Value)) (l : List Value) :
    argsRead (mapSet c "args" (Value.seq l)) = l := by
  simp [argsRead, asSeq, lookupV_mapSet]

/-- Running one iteration again on the resource it just produced finds the
flag already present and leaves the resource unchanged. -/
theorem tryPatch_patched_again (res res₁ : KubernetesResource) (rep : PatchReport)
    (h : tryPatch res = TryResult.patched res₁ rep) :
    tryPatch res₁ = TryResult.patched res₁ PatchReport.alreadyPresent := by
  unfold tryPatch at h
  split at h
  · rename_i hT
    split at h
    · exact (nomatch h)
    · rename_i specTemplate h1
      split at h
      · exact (nomatch h)
      · rename_i innerSpec h2
        split at h
        · exact (nomatch h)
        · exact (nomatch h)
        · rename_i c₀ crest h3
          split at h
          · rename_i container
            simp only [] at h
            split at h
            · rename_i hf
              injection h with hres hrep
              subst hres
              unfold tryPatch
              rw [if_pos hT]
              simp only [h1, h2, h3]
              rw [if_pos hf]
            · rename_i hf
              injection h with hres hrep
              subst hres
              have hT' : isTarget { res with
                  spec := mapSet res.spec "template" (Value.map (mapSet specTemplate "spec"
                    (Value.map (mapSet innerSpec "containers" (Value.seq
                      (Value.map (mapSet container "args"
                        (Value.seq (argsRead container ++ [Value.str theFlag]))) :: crest)))))) } = true := hT
              unfold tryPatch
              rw [if_pos hT']
              simp only [lookupV_mapSet, asMap, asSeq, argsRead_mapSet, hasFlag_append]
              rw [if_pos trivial]
          · exact (nomatch h)
  · exact (nomatch h)

/-- C1: Idempotence of the mutation. If the find-and-patch loop processed
the target (it reports `added` or `alreadyPresent`, i.e. anything but
`notPatched`), then running the loop again on its output changes nothing:
the manifest is returned identical and the value is reported as already
present. -/
theorem ensureArg_idempotent (rs rs₁ : List KubernetesResource) (rep : PatchReport)
    (h : patchLoop rs = some (rs₁, rep)) (hrep : rep ≠ PatchReport.notPatched) :
    patchLoop rs₁ = some (rs₁, PatchReport.alreadyPresent) := by
  induction rs generalizing rs₁ rep with
  | nil =>
    unfold patchLoop at h
    injection h with h1
    rw [Prod.mk.injEq] at h1
    exact absurd h1.2.symm hrep
  | cons res rest ih =>
    unfold patchLoop at h
    cases htp : tryPatch res with
    | skip =>
      simp only [htp] at h
      cases hrest : patchLoop rest with
      | none =>
        simp only [hrest] at h
        exact (nomatch h)
      | some pr =>
        obtain ⟨rest₁, rep₁⟩ := pr
        simp only [hrest] at h
        injection h with h1
        rw [Prod.mk.injEq] at h1
        obtain ⟨h2, h3⟩ := h1
        subst h2
        subst h3
        have hrec := ih rest₁ rep₁ hrest hrep
        unfold patchLoop
        simp only [htp, hrec]
    | panicked =>
      simp only [htp] at h
      exact (nomatch h)
    | patched resP repP =>
      simp only [htp] at h
      injection h with h1
      rw [Prod.mk.injEq] at h1
      obtain ⟨h2, h3⟩ := h1
      subst h2
      subst h3
      have h4 := tryPatch_patched_again res resP repP htp
      unfold patchLoop
      simp only [h4]

/-- Witness for C1: a one-document manifest holding the target Deployment
with an empty argument list; the first application adds the flag, the
second application returns the manifest unchanged and reports the flag
already present. -/
theorem ensureArg_idempotent_witness :
    patchLoop [readyTargetPatched] = some ([readyTargetPatched], PatchReport.alreadyPresent) :=
  ensureArg_idempotent [readyTarget] [readyTargetPatched] PatchReport.added rfl (by decide)

/-- When every resource is skipped, the loop falls off the end: the slice is
returned untouched and nothing is patched. -/
theorem patchLoop_all_skip (rs : List KubernetesResource)
    (h : ∀ res ∈ rs, tryPatch res = TryResult.skip) :
    patchLoop rs = some (rs, PatchReport.notPatched) := by
  induction rs with
  | nil => rfl
  | cons res rest ih =>
    have h1 := h res (List.mem_cons_self res rest)
    have h2 := ih (fun r hr => h r (List.mem_cons_of_mem res hr))
    unfold patchLoop
    simp only [h1, h2]

/-- A resource on which the `spec.template.spec.containers` descent fails
(or yields an empty container list) is skipped by the loop. -/
theorem tryPatch_of_no_containers (res : KubernetesResource)
    (h : navContainers res = none) : tryPatch res = TryResult.skip := by
  unfold navContainers at h
  unfold tryPatch
  by_cases hT : isTarget res = true
  · rw [if_pos hT]
    cases h1 : asMap (lookupV res.spec "template") with
    | none => simp only [h1]
    | some t =>
      simp only [h1] at h ⊢
      cases h2 : asMap (lookupV t "spec") with
      | none => simp only [h2]
      | some s =>
        simp only [h2] at h ⊢
        cases h3 : asSeq (lookupV s "containers") with
        | none => simp only [h3]
        | some cs =>
          cases cs with
          | nil => simp only [h3]
          | cons c crest =>
            simp only [h3] at h
            exact (nomatch h)
  · rw [if_neg hT]

/-- C8: Not-found safety. For every manifest in which no document matches
the selector (no `Deployment` named `metrics-server`), the whole operation
completes without mutating any parsed document: the written value is the
re-serialization of the unpatched resource list and nothing is reported as
patched. -/
theorem findTarget_not_found (s : RawStream)
    (h : ∀ res ∈ parseResources s, isTarget res = false) :
    patchLoop (parseResources s) = some (parseResources s, PatchReport.notPatched) ∧
    modifyMetricsServer s =
      some (serializeResources (parseResources s), PatchReport.notPatched) := by
  have h1 := patchLoop_all_skip (parseResources s)
    (fun res hr => tryPatch_of_not_target res (h res hr))
  refine ⟨h1, ?_⟩
  unfold modifyMetricsServer
  simp only [h1]

/-- Witness for C8: a one-document manifest holding only a `Service`; the
loop finds no target and the output re-serializes the untouched resource. -/
theorem findTarget_not_found_witness :
    patchLoop (parseResources ⟨[encodeResource serviceRes], false⟩) =
      some (parseResources ⟨[encodeResource serviceRes], false⟩, PatchReport.notPatched) ∧
    modifyMetricsServer ⟨[encodeResource serviceRes], false⟩ =
      some (serializeResources (parseResources ⟨[encodeResource serviceRes], false⟩),
        PatchReport.notPatched) :=
  findTarget_not_found ⟨[encodeResource serviceRes], false⟩ (by
    intro res hr
    have h1 : parseResources ⟨[encodeResource serviceRes], false⟩ = [serviceRes] := rfl
    rw [h1] at hr
    obtain rfl := List.mem_singleton.mp hr
    rfl)

/-- Counterexample to C5 as stated: a manifest whose FIRST selector-matching
document lacks `spec.template.spec.containers` is NOT left unchanged when a
later document also matches — the loop `continue`s past the deficient match
and mutates the later one. -/
theorem missing_path_counterexample :
    navContainers skippedTarget = none ∧
    patchLoop [skippedTarget, readyTarget] =
      some ([skippedTarget, readyTargetPatched], PatchReport.added) ∧
    [skippedTarget, readyTargetPatched] ≠ [skippedTarget, readyTarget] := by
  refine ⟨rfl, rfl, ?_⟩
  intro h
  have h1 : readyTargetPatched = readyTarget := by
    have h2 := congrArg (fun l => l.get? 1) h
    simpa using h2
  have h5 : (some [Value.str theFlag] : Option (List Value)) = some [] :=
    congrArg navFirstArgs h1
  simp at h5

/-- C5 amended: when EVERY selector-matching document of the manifest lacks
the `spec.template.spec.containers` path, the loop treats each such document
like a non-match (there is no distinct missing-path report), does not raise,
and the manifest is unchanged; the outcome is non-fatal to the caller. -/
theorem missing_path_no_mutation (rs : List KubernetesResource)
    (h : ∀ res ∈ rs, isTarget res = true → navContainers res = none) :
    patchLoop rs = some (rs, PatchReport.notPatched) := by
  apply patchLoop_all_skip
  intro res hr
  by_cases hT : isTarget res = true
  · exact tryPatch_of_no_containers res (h res hr hT)
  · exact tryPatch_of_not_target res (by simp at hT; exact hT)

/-- Witness for the amended C5: a manifest whose only document matches the
selector but has no `spec.template` — the loop returns it unchanged. -/
theorem missing_path_no_mutation_witness :
    patchLoop [skippedTarget] = some ([skippedTarget], PatchReport.notPatched) :=
  missing_path_no_mutation [skippedTarget] (by
    intro res hr hT
    obtain rfl := List.mem_singleton.mp hr
    rfl)

/-- Counterexample to C6 as stated: with two selector-matching documents of
which the first lacks the descent path, the loop does NOT mutate the first
matching document — it `continue`s and mutates the second one. -/
theorem first_match_counterexample :
    isTarget skippedTarget = true ∧
    isTarget readyTarget = true ∧
    patchLoop [skippedTarget, readyTarget] =
      some ([skippedTarget, readyTargetPatched], PatchReport.added) ∧
    readyTargetPatched ≠ readyTarget := by
  refine ⟨rfl, rfl, rfl, ?_⟩
  intro h1
  have h5 : (some [Value.str theFlag] : Option (List Value)) = some [] :=
    congrArg navFirstArgs h1
  simp at h5

/-- C6 amended: the loop scans documents in order and mutates exactly the
first document that matches the selector AND whose
`spec.template.spec.containers` descent succeeds; every earlier document
(non-matching, or matching with a failed descent) and every later document
is returned unchanged. -/
theorem first_navigable_match_wins (pre rest : List KubernetesResource)
    (res res₁ : KubernetesResource) (rep : PatchReport)
    (hpre : ∀ r ∈ pre, tryPatch r = TryResult.skip)
    (h : tryPatch res = TryResult.patched res₁ rep) :
    patchLoop (pre ++ res :: rest) = some (pre ++ res₁ :: rest, rep) := by
  induction pre with
  | nil =>
    simp only [List.nil_append]
    unfold patchLoop
    simp only [h]
  | cons p ps ih =>
    have hp := hpre p (List.mem_cons_self p ps)
    have hrec := ih (fun r hr => hpre r (List.mem_cons_of_mem p hr))
    simp only [List.cons_append]
    unfold patchLoop
    simp only [hp, hrec]

/-- Witness for the amended C6: a skipped matching document followed by a
navigable matching document — the second is the one patched, the first is
returned as is. -/
theorem first_navigable_match_wins_witness :
    patchLoop [skippedTarget, readyTarget, serviceRes] =
      some ([skippedTarget, readyTargetPatched, serviceRes], PatchReport.added) :=
  first_navigable_match_wins [skippedTarget] [serviceRes]
    readyTarget readyTargetPatched PatchReport.added
    (by intro r hr; obtain rfl := List.mem_singleton.mp hr; rfl) rfl

/-- C7: the concrete append scenario. Starting from the manifest whose
target Deployment has `args = ["--cert-dir=/tmp",
"--kubelet-use-node-status-port"]`, one application appends the flag at the
end (pre-existing order preserved), and a second application returns the
manifest unchanged, reporting the flag already present. -/
theorem scenario_append_at_end :
    patchLoop [scenarioDeployment] =
      some ([scenarioDeploymentPatched], PatchReport.added) ∧
    navFirstArgs scenarioDeploymentPatched =
      some [certDirArg, nodePortArg, Value.str theFlag] ∧
    patchLoop [scenarioDeploymentPatched] =
      some ([scenarioDeploymentPatched], PatchReport.alreadyPresent) :=
  ⟨rfl, rfl, rfl⟩

/-- C10: a well-formed manifest — the target Deployment with a non-empty
container list whose first element is a string scalar — makes the run fail
with the unchecked type assertion (modelled as `none`) instead of returning
any advisory outcome. -/
theorem scalar_container_panics :
    decodeResource scalarContainerDoc = some scalarContainerRes ∧
    tryPatch scalarContainerRes = TryResult.panicked ∧
    modifyMetricsServer ⟨[scalarContainerDoc], false⟩ = none :=
  ⟨rfl, rfl, rfl⟩

/-- C3 is violated by the code: `yaml.Marshal` of the resource slice emits a
single document whose root is a sequence, so re-parsing the saved output
with the same decode loop yields NO resources at all — the round trip
`parse(serialize(parse(rawBytes)))` equals `[]`, not `parse(rawBytes)`, for
every non-empty input, and the multi-document structure is not preserved. -/
theorem roundtrip_broken :
    (∀ rs : List KubernetesResource,
      parseResources ⟨[serializeResources rs], false⟩ = []) ∧
    parseResources ⟨[encodeResource readyTarget], false⟩ = [readyTarget] ∧
    parseResources ⟨[serializeResources
      (parseResources ⟨[encodeResource readyTarget], false⟩)], false⟩ = [] :=
  ⟨fun _ => rfl, rfl, rfl⟩

/-- C4 is violated by the code: a decode error is `break`, not a reported
`ParseError`. A stream whose tail is malformed (or whose later documents
fail to decode) still completes the whole patch-and-write operation
successfully, and the partially decoded prefix is kept and written back
rather than discarded. -/
theorem parse_error_swallowed :
    modifyMetricsServer ⟨[serviceAccountDoc], true⟩ =
      some (serializeResources [serviceAccountRes], PatchReport.notPatched) ∧
    parseResources ⟨[serviceAccountDoc], true⟩ = [serviceAccountRes] ∧
    parseResources ⟨[serviceAccountDoc, Value.str "garbage", serviceAccountDoc],
      false⟩ = [serviceAccountRes] :=
  ⟨rfl, rfl, rfl⟩

/-- C9: when the matched document's first container has no `args` key (the
tolerant read `args, ok := ...; if !ok` yields `nil`), the patcher treats
the list as empty and stores the one-element list holding the flag,
reporting it as added — it does not treat the absent terminal segment as a
missing path. -/
theorem absent_args_added (res : KubernetesResource)
    (specTemplate innerSpec container : List (String × Value)) (crest : List Value)
    (hT : isTarget res = true)
    (h1 : asMap (lookupV res.spec "template") = some specTemplate)
    (h2 : asMap (lookupV specTemplate "spec") = some innerSpec)
    (h3 : asSeq (lookupV innerSpec "containers") = some (Value.map container :: crest))
    (h4 : asSeq (lookupV container "args") = none) :
    ∃ res₁, tryPatch res = TryResult.patched res₁ PatchReport.added ∧
      navFirstArgs res₁ = some [Value.str theFlag] := by
  have hA : argsRead container = [] := by
    unfold argsRead
    rw [h4]
  refine ⟨{ res with spec := mapSet res.spec "template" (Value.map
    (mapSet specTemplate "spec" (Value.map (mapSet innerSpec "containers"
      (Value.seq (Value.map (mapSet container "args"
        (Value.seq [Value.str theFlag])) :: crest)))))) }, ?_, ?_⟩
  · unfold tryPatch
    rw [if_pos hT]
    simp [h1, h2, h3, hA, hasFlag]
  · simp [navFirstArgs, navContainers, lookupV_mapSet, asMap, asSeq, argsRead_mapSet]

/-- Witness for C9: a concrete target Deployment whose first container has
no `args` key; the patch succeeds and the resulting argument list is
exactly the one-element list holding the flag. -/
theorem absent_args_added_witness :
    ∃ res₁, tryPatch noArgsTarget = TryResult.patched res₁ PatchReport.added ∧
      navFirstArgs res₁ = some [Value.str theFlag] :=
  absent_args_added noArgsTarget _ _ _ []
    rfl rfl rfl rfl rfl

/-- Re-decoding a marshalled resource recovers the same resource: within
the four declared fields, the save→load cycle is lossless. -/
theorem decode_encode (r : KubernetesResource) :
    decodeResource (encodeResource r) = some r := by
  simp [decodeResource, encodeResource, decodeStringField, decodeMapField, lookupV]

/-- Counterexample to C2 as stated: a top-level field beyond the four the
struct declares (`rules` on a ClusterRole) is NOT preserved by the
load→patch→save cycle — the field is present on the input document and
absent from the written output. -/
theorem isolation_counterexample :
    modifyMetricsServer ⟨[clusterRoleDoc], false⟩ =
      some (Value.seq [clusterRoleOut], PatchReport.notPatched) ∧
    (topField clusterRoleDoc "rules").isSome = true ∧
    topField clusterRoleOut "rules" = none :=
  ⟨rfl, rfl, rfl⟩

/-- C2 amended: the patch step leaves every document that does not match
the selector unchanged as a decoded resource, and for such documents the
save→load cycle is lossless on the four interpreted fields; but fields
beyond `apiVersion`/`kind`/`metadata`/`spec` are only tolerated on input —
they are dropped by the cycle, not passed through. -/
theorem patch_frame_non_target (rs rs₁ : List KubernetesResource)
    (rep : PatchReport) (i : Nat) (res : KubernetesResource)
    (h : patchLoop rs = some (rs₁, rep))
    (hres : rs.get? i = some res) (hT : isTarget res = false) :
    rs₁.get? i = some res ∧ decodeResource (encodeResource res) = some res := by
  refine ⟨?_, decode_encode res⟩
  induction rs generalizing rs₁ rep i with
  | nil => rw [List.get?_nil] at hres; exact (nomatch hres)
  | cons r rest ih =>
    unfold patchLoop at h
    cases htp : tryPatch r with
    | skip =>
      simp only [htp] at h
      cases hrest : patchLoop rest with
      | none =>
        simp only [hrest] at h
        exact (nomatch h)
      | some pr =>
        obtain ⟨rest₁, rep₁⟩ := pr
        simp only [hrest] at h
        injection h with h1
        rw [Prod.mk.injEq] at h1
        obtain ⟨h2, h3⟩ := h1
        subst h2
        subst h3
        cases i with
        | zero =>
          rw [List.get?_cons_zero] at hres ⊢
          exact hres
        | succ n =>
          rw [List.get?_cons_succ] at hres ⊢
          exact ih rest₁ rep₁ n hrest hres
    | panicked =>
      simp only [htp] at h
      exact (nomatch h)
    | patched resP repP =>
      simp only [htp] at h
      injection h with h1
      rw [Prod.mk.injEq] at h1
      obtain ⟨h2, h3⟩ := h1
      subst h2
      subst h3
      cases i with
      | zero =>
        rw [List.get?_cons_zero] at hres
        injection hres with h4
        subst h4
        rw [tryPatch_of_not_target _ hT] at htp
        exact (nomatch htp)
      | succ n =>
        rw [List.get?_cons_succ] at hres ⊢
        exact hres

/-- Witness for the amended C2: a two-document manifest (a `Service` and
the target Deployment); after the patch the non-matching `Service` is still
at its index, unchanged, and re-decodes to itself after a save. -/
theorem patch_frame_non_target_witness :
    [serviceRes, readyTargetPatched].get? 0 = some serviceRes ∧
    decodeResource (encodeResource serviceRes) = some serviceRes :=
  patch_frame_non_target [serviceRes, readyTarget]
    [serviceRes, readyTargetPatched] PatchReport.added 0 serviceRes rfl rfl rfl
